import Mathlib

/-!
Shallow embedding of the hyprland-per-window-layout program:
the event-line parser and layout discovery from `hypr/hypr.go`, and the
window-layout tracker plus reconnect supervisor from the main event loop.
Strings are modelled as `List Char`; the Go `hyprctl` controller is
modelled as an explicit record of response functions.
-/

/-- Characters of a string literal, the `List Char` view of Go strings. -/
def strL (s : String) : List Char := s.data

/-- Prepend a character to the head element of a list of segments
(used by the split functions below to build segments front to back). -/
def consHead (x : Char) : List (List Char) → List (List Char)
  | [] => [[x]]
  | h :: t => (x :: h) :: t

/-- Embedding of Go `strings.Split(s, ">>")`: non-overlapping,
left-to-right splitting on the two-character delimiter. -/
def splitGG : List Char → List (List Char)
  | [] => [[]]
  | '>' :: '>' :: rest => [] :: splitGG rest
  | x :: rest => consHead x (splitGG rest)

/-- Embedding of Go `strings.Split(s, ",")`. -/
def splitComma : List Char → List (List Char)
  | [] => [[]]
  | ',' :: rest => [] :: splitComma rest
  | x :: rest => consHead x (splitComma rest)

/-- Embedding of Go `strings.Contains(s, ">>")`. -/
def containsGG : List Char → Bool
  | [] => false
  | '>' :: '>' :: _ => true
  | _ :: rest => containsGG rest

/-- The text before the first occurrence of `">>"` (the whole string when
there is no occurrence); spec-side helper for stating parser claims. -/
def beforeGG : List Char → List Char
  | [] => []
  | '>' :: '>' :: _ => []
  | x :: rest => x :: beforeGG rest

/-- The text after the first occurrence of `">>"` (empty when there is no
occurrence); spec-side helper for stating parser claims. -/
def afterGG : List Char → List Char
  | [] => []
  | '>' :: '>' :: rest => rest
  | _ :: rest => afterGG rest

/-- Parsed event, mirroring `hypr.Event` (`Name`, `Args`). -/
structure Event where
  name : List Char
  args : List (List Char)
deriving DecidableEq

/-- Outcome of the parsing part of `Client.ReadEvent`: a parsed event, the
returned format error, or a Go runtime panic from an out-of-bounds index. -/
inductive ParseResult
  | ok (e : Event)
  | formatError
  | panicOOB
deriving DecidableEq

/-- The parsing part of `Client.ReadEvent` (hypr.go lines 74-82):
`evtParts := strings.Split(data, ">>")`; if `len(evtParts) == 0` return the
format error; otherwise build the event from `evtParts[0]` and
`evtParts[1]`, where indexing past the end is a Go panic. -/
def parseEventLine (data : List Char) : ParseResult :=
  let evtParts := splitGG data
  if evtParts.length = 0 then .formatError
  else
    match evtParts[0]?, evtParts[1]? with
    | some name0, some raw => .ok ⟨name0, splitComma raw⟩
    | _, _ => .panicOOB

/-- Modelled from the spec's words (for comparison with `parseEventLine`):
split on the FIRST occurrence of `">>"` into name and raw args, and split
all of the raw args on `","`. -/
def parseEventLineSpec (data : List Char) : ParseResult :=
  if containsGG data then .ok ⟨beforeGG data, splitComma (afterGG data)⟩
  else .formatError

/-- State of the window-layout tracker: the local variables `layoutMap`,
`currentWindowId` and `currentLayout` of `processHyprlandEvents`.
The Go map is modelled as an association list where the most recent
insertion is at the front and lookup takes the first match. -/
structure TrackerState where
  layoutMap : List (List Char × Int)
  currentWindowId : List Char
  currentLayout : Int
deriving DecidableEq

/-- Result of processing one event: the updated tracker state, the
`SwitchXKBLayout` commands issued while processing it, and whether a
command failed (which makes `processHyprlandEvents` return an error). -/
structure StepResult where
  state : TrackerState
  cmds : List Int
  failed : Bool
deriving DecidableEq

/-- `evt.Args[len(evt.Args)-1]`.  The parser always produces a non-empty
argument list (`splitComma_ne_nil`), so the Go out-of-range panic on an
empty slice is unreachable and the default is never used. -/
def lastArg (args : List (List Char)) : List Char := args.getLastD []

/-- Go map lookup returning the zero value `d` when the key is absent
(`layoutToIndex[name]` and `layoutMap[id]` with its `known` flag). -/
def lookupD (m : List (List Char × Int)) (k : List Char) (d : Int) : Int :=
  match m.find? (fun p => p.1 == k) with
  | some p => p.2
  | none => d

/-- Go map insertion `m[k] = v`: the new entry shadows any older one. -/
def mapInsert (m : List (List Char × Int)) (k : List Char) (v : Int) :
    List (List Char × Int) :=
  (k, v) :: m

/-- `defaultLayout := 0` in `processHyprlandEvents`. -/
def defaultLayout : Int := 0

/-- `for i, l := range layouts { layoutToIndex[l] = i }`. -/
def buildLayoutToIndex (layouts : List (List Char)) : List (List Char × Int) :=
  layouts.enum.foldl (fun m p => mapInsert m p.2 (p.1 : Int)) []

/-- One iteration of the event loop of `processHyprlandEvents`
(the `switch evt.Name` statement), with the controller's
`SwitchXKBLayout` modelled by the success predicate `switchOk`.
On `activelayout`: ignore when no window is current, otherwise record the
reported layout index for the current window and as the current layout.
On `activewindowv2`: ignore a duplicate focus; otherwise update
`currentWindowId` first, then issue a switch command only when the
resolved target differs from `currentLayout`; the code leaves
`currentLayout` untouched in this branch. -/
def processEvent (layoutToIndex : List (List Char × Int)) (switchOk : Int → Bool)
    (st : TrackerState) (evt : Event) : StepResult :=
  if evt.name = strL "activelayout" then
    if st.currentWindowId = [] then ⟨st, [], false⟩
    else
      ⟨⟨mapInsert st.layoutMap st.currentWindowId
          (lookupD layoutToIndex (lastArg evt.args) 0),
        st.currentWindowId,
        lookupD layoutToIndex (lastArg evt.args) 0⟩, [], false⟩
  else if evt.name = strL "activewindowv2" then
    if st.currentWindowId = lastArg evt.args then ⟨st, [], false⟩
    else if lookupD st.layoutMap (lastArg evt.args) defaultLayout = st.currentLayout then
      ⟨⟨st.layoutMap, lastArg evt.args, st.currentLayout⟩, [], false⟩
    else
      ⟨⟨st.layoutMap, lastArg evt.args, st.currentLayout⟩,
       [lookupD st.layoutMap (lastArg evt.args) defaultLayout],
       !switchOk (lookupD st.layoutMap (lastArg evt.args) defaultLayout)⟩
  else ⟨st, [], false⟩

/-- The event loop of `processHyprlandEvents` run on a list of raw event
lines: each line is parsed with `parseEventLine` and fed to
`processEvent`; a parse failure or a failed switch command ends the
attempt with the failure flag set.  Returns the final tracker state, all
commands issued, and the failure flag. -/
def runLines (layoutToIndex : List (List Char × Int)) (switchOk : Int → Bool) :
    TrackerState → List (List Char) → TrackerState × List Int × Bool
  | st, [] => (st, [], false)
  | st, line :: restLines =>
    match parseEventLine line with
    | .ok e =>
        let r := processEvent layoutToIndex switchOk st e
        if r.failed then (r.state, r.cmds, true)
        else
          let next := runLines layoutToIndex switchOk r.state restLines
          (next.1, r.cmds ++ next.2.1, next.2.2)
    | _ => (st, [], true)

/-- Initial tracker state of every pipeline attempt:
empty map, `currentWindowId = ""`, `currentLayout = -1`. -/
def initialTracker : TrackerState := ⟨[], [], -1⟩

/-- `retryWait` of `main`, in milliseconds: 500ms, 1s, 2s, 4s. -/
def retryWaitMs : List Nat := [500, 1000, 2000, 4000]

/-- The retry loop of `main`, driven by one boolean per pipeline attempt
recording whether `resetRetryCount` ran during that attempt (it runs as
soon as one event is read).  Every attempt ends in an error, which the
loop handles: panic when `retry >= len(retryWait)`, otherwise wait
`retryWait[retry]` and increment `retry`.  Returns the list of waits
performed (in ms) and whether the loop ended in the panic. -/
def supervise (retry : Nat) : List Bool → List Nat × Bool
  | [] => ([], false)
  | didReset :: restAttempts =>
    let r := if didReset then 0 else retry
    if retryWaitMs.length ≤ r then ([], true)
    else
      let next := supervise (r + 1) restAttempts
      (retryWaitMs.getD r 0 :: next.1, next.2)

/-- Whether `resetRetryCount` runs during one pipeline attempt, as a
function of the environment: when `HYPRLAND_INSTANCE_SIGNATURE` is absent,
`hypr.NewClient` fails before the event loop starts, so no event is read
and the reset never runs regardless of how many events the socket would
have delivered. -/
def attemptDidReset (envHasSig : Bool) (eventsRead : Nat) : Bool :=
  envHasSig && !(eventsRead == 0)

/-- A keyboard entry of the `hyprctl devices -j` response
(`hypr.Keyboard`). -/
structure Keyboard where
  layout : List Char
  activeKeymap : List Char
  main : Bool
deriving DecidableEq

/-- The external `hyprctl` controller as seen by `ReadLayouts`:
the first `devices` query, the `devices` query made right after switching
to index `i` (`none` models a failed execution or malformed JSON), and
whether `switchxkblayout` to a given index succeeds. -/
structure Controller where
  query0 : Option (List Keyboard)
  queryAfterSwitch : Nat → Option (List Keyboard)
  switchOk : Nat → Bool

/-- The scan loop of `ReadLayouts` over indices `i, i+1, ...` with `k`
indices left and `aIdx` the `activeLayoutIdx` accumulator (`none` is Go's
`-1`): switch to `i`, re-query the devices, and record the active keymap
of the first main-flagged keyboard (a response with no main keyboard
leaves the entry at the zero value `""` and the accumulator untouched).
Returns the recorded names, the switch commands issued, and the final
accumulator; `none` models the error returns inside the loop. -/
def scanLoop (c : Controller) (mainKeymap : List Char) :
    Nat → Nat → Option Nat → Option (List (List Char) × List Nat × Option Nat)
  | _, 0, aIdx => some ([], [], aIdx)
  | i, k + 1, aIdx =>
    if c.switchOk i then
      match c.queryAfterSwitch i with
      | none => none
      | some kbs =>
        let rec0 :=
          match kbs.find? (fun kb => kb.main) with
          | none => (([] : List Char), aIdx)
          | some kb =>
            (kb.activeKeymap, if kb.activeKeymap = mainKeymap then some i else aIdx)
        match scanLoop c mainKeymap (i + 1) k rec0.2 with
        | none => none
        | some (restNames, sws, finalIdx) =>
            some (rec0.1 :: restNames, i :: sws, finalIdx)
    else none

/-- Outcome of `ReadLayouts`: a returned error, the Go panic from
`response.Keyboards[0]` on an empty keyboard list, or success carrying the
discovered layout names, every switch command issued (the device ends on
the last of them), and whether the cannot-restore warning was logged. -/
inductive RLResult
  | rlError
  | panicEmpty
  | ok (layouts : List (List Char)) (switches : List Nat) (warned : Bool)
deriving DecidableEq

/-- `Client.ReadLayouts` (hypr.go lines 90-143): query the devices, take
the first main-flagged keyboard (falling back to `Keyboards[0]`, a panic
when the list is empty), split its configured layout list on `","`, scan
every index with `scanLoop`, then switch back to the remembered active
index, or log the warning and return when none was remembered. -/
def readLayouts (c : Controller) : RLResult :=
  match c.query0 with
  | none => .rlError
  | some [] => .panicEmpty
  | some (kb0 :: restKbs) =>
    let mainKb := (((kb0 :: restKbs).find? (fun kb => kb.main)).getD kb0)
    let layoutsShorts := splitComma mainKb.layout
    match scanLoop c mainKb.activeKeymap 0 layoutsShorts.length none with
    | none => .rlError
    | some (result, sws, none) => .ok result sws true
    | some (result, sws, some aIdx) =>
      if c.switchOk aIdx then .ok result (sws ++ [aIdx]) false
      else .rlError

/-- The `activeLayoutIdx` accumulator of the scan loop in isolation, as a
function of the keymap names reported per index: index `i` overwrites the
accumulator whenever its reported name equals the pre-scan keymap. -/
def scanActive (mainKeymap : List Char) (names : Nat → List Char) :
    Nat → Nat → Option Nat → Option Nat
  | _, 0, aIdx => aIdx
  | i, k + 1, aIdx =>
    scanActive mainKeymap names (i + 1) k
      (if names i = mainKeymap then some i else aIdx)

/-- The layout table of the end-to-end scenario: layouts `en`, `us`. -/
def c1Layouts : List (List Char) := [strL "en", strL "us"]

/-- The raw event lines of the end-to-end scenario. -/
def c1Lines : List (List Char) :=
  [strL "activewindowv2>>W1", strL "activelayout>>us",
   strL "activewindowv2>>W2", strL "activewindowv2>>W1"]

/-- A main-flagged keyboard with a 3-entry layout list, for the discovery
round-trip scenario; its active keymap is the one at index 2. -/
def kbMainW : Keyboard := ⟨strL "en,us,de", strL "German", true⟩

/-- Keymap names reported per index in the round-trip scenario. -/
def namesW : Nat → List Char := fun i =>
  if i = 0 then strL "English" else if i = 1 then strL "Russian" else strL "German"

/-- The main-flagged keyboard reported after switching to index `i`. -/
def kbAtW : Nat → Keyboard := fun i => ⟨strL "en,us,de", namesW i, true⟩

/-- A well-behaved controller for the discovery round-trip scenario. -/
def cW : Controller := ⟨some [kbMainW], fun i => some [kbAtW i], fun _ => true⟩

/-- A keyboard that is not flagged main. -/
def kbNoMainW : Keyboard := ⟨strL "en,us", strL "x", false⟩

/-- The (non-main) keyboard reported during the scan. -/
def kbNoMainW2 : Keyboard := ⟨strL "en,us", strL "y", false⟩

/-- A controller none of whose reported keyboards is flagged main. -/
def cNoMainW : Controller := ⟨some [kbNoMainW], fun _ => some [kbNoMainW2], fun _ => true⟩

theorem consHead_ne_nil (x : Char) (l : List (List Char)) : consHead x l ≠ [] := by
  cases l <;> simp [consHead]

theorem splitGG_ne_nil (s : List Char) : splitGG s ≠ [] := by
  induction s using splitGG.induct with
  | case1 => simp [splitGG]
  | case2 rest ih => simp [splitGG]
  | case3 x rest h ih => simp only [splitGG]; exact consHead_ne_nil x _

theorem splitComma_ne_nil (s : List Char) : splitComma s ≠ [] := by
  induction s using splitComma.induct with
  | case1 => simp [splitComma]
  | case2 rest ih => simp [splitComma]
  | case3 x rest h ih => simp only [splitComma]; exact consHead_ne_nil x _

theorem splitGG_of_not_contains (s : List Char) (h : containsGG s = false) :
    splitGG s = [s] := by
  induction s using splitGG.induct with
  | case1 => rfl
  | case2 rest ih => simp [containsGG] at h
  | case3 x rest hx ih =>
      have hc : containsGG (x :: rest) = containsGG rest := by
        rw [containsGG]; exact hx
      have hs : splitGG (x :: rest) = consHead x (splitGG rest) := by
        rw [splitGG]; exact hx
      rw [hc] at h
      rw [hs, ih h, consHead]

theorem beforeGG_of_not_contains (s : List Char) (h : containsGG s = false) :
    beforeGG s = s := by
  induction s using beforeGG.induct with
  | case1 => rfl
  | case2 rest => simp [containsGG] at h
  | case3 x rest hx ih =>
      have hc : containsGG (x :: rest) = containsGG rest := by
        rw [containsGG]; exact hx
      have hb : beforeGG (x :: rest) = x :: beforeGG rest := by
        rw [beforeGG]; exact hx
      rw [hc] at h
      rw [hb, ih h]

theorem splitGG_of_contains (s : List Char) (h : containsGG s = true) :
    splitGG s = beforeGG s :: splitGG (afterGG s) := by
  induction s using splitGG.induct with
  | case1 => simp [containsGG] at h
  | case2 rest ih => rfl
  | case3 x rest hx ih =>
      have hc : containsGG (x :: rest) = containsGG rest := by
        rw [containsGG]; exact hx
      have hs : splitGG (x :: rest) = consHead x (splitGG rest) := by
        rw [splitGG]; exact hx
      have hb : beforeGG (x :: rest) = x :: beforeGG rest := by
        rw [beforeGG]; exact hx
      have ha : afterGG (x :: rest) = afterGG rest := by
        rw [afterGG]; exact hx
      rw [hc] at h
      rw [hs, ih h, consHead, hb, ha]

theorem lastArg_concat (l : List (List Char)) (w : List Char) :
    lastArg (l ++ [w]) = w := by
  induction l with
  | nil => rfl
  | cons x xs ih =>
      cases xs with
      | nil => rfl
      | cons y ys => simpa [lastArg] using ih

theorem splitGG_head_beforeGG (s : List Char) :
    ∃ t, splitGG s = beforeGG s :: t := by
  cases h : containsGG s
  · exact ⟨[], by rw [splitGG_of_not_contains s h, beforeGG_of_not_contains s h]⟩
  · exact ⟨_, splitGG_of_contains s h⟩

theorem focus_sets_cwid (lt : List (List Char × Int)) (sw : Int → Bool)
    (st : TrackerState) (args : List (List Char)) (w : List Char) :
    (processEvent lt sw st ⟨strL "activewindowv2", args ++ [w]⟩).state.currentWindowId
      = w := by
  have hne : ¬ strL "activewindowv2" = strL "activelayout" := by decide
  simp only [processEvent]
  rw [if_neg hne]
  simp only [if_true]
  rw [lastArg_concat]
  split_ifs with h1 h2
  · exact h1
  · rfl
  · rfl

/-- C2: a line without the `">>"` delimiter does not produce the returned
format error the code intends (`ProtocolError`); `strings.Split` yields a
single-element slice, so the dead `len == 0` guard is skipped and
`evtParts[1]` panics with an index-out-of-range runtime error. -/
theorem c2_missing_delimiter_panics (data : List Char)
    (h : containsGG data = false) :
    parseEventLine data = .panicOOB := by
  unfold parseEventLine
  rw [splitGG_of_not_contains data h]
  rfl

theorem c2_missing_delimiter_panics_witness :
    containsGG (strL "ping") = false ∧ parseEventLine (strL "ping") = .panicOOB :=
  ⟨by decide, c2_missing_delimiter_panics (strL "ping") (by decide)⟩

/-- C4 counterexample: on the line `"N>>a>>b"`, which contains the
delimiter twice, the code's parse differs from the spec's described parse
(args from the text after the FIRST `">>"`): the code yields
`args = ["a"]`, the spec's description yields `args = ["a>>b"]`. -/
theorem c4_parse_counterexample :
    parseEventLine (strL "N>>a>>b") ≠ parseEventLineSpec (strL "N>>a>>b") := by
  decide

/-- C4 amended: for every line containing `">>"`, the parser returns
`name` = the text before the first `">>"` and `args` = the text between
the first `">>"` and the following `">>"` (to the end of the line when
there is no further occurrence), split on `","`; the two quirk examples
hold as stated. -/
theorem c4_parse_amended :
    (∀ data : List Char, containsGG data = true →
      parseEventLine data
        = .ok ⟨beforeGG data, splitComma (beforeGG (afterGG data))⟩)
    ∧ parseEventLine (strL "NAME>>A,B,C")
        = .ok ⟨strL "NAME", [strL "A", strL "B", strL "C"]⟩
    ∧ parseEventLine (strL "NAME>>") = .ok ⟨strL "NAME", [[]]⟩ := by
  refine ⟨?_, by decide, by decide⟩
  intro data h
  obtain ⟨t, ht⟩ := splitGG_head_beforeGG (afterGG data)
  unfold parseEventLine
  rw [splitGG_of_contains data h, ht]
  simp

theorem c4_parse_amended_witness :
    containsGG (strL "x>>y") = true
    ∧ parseEventLine (strL "x>>y")
        = .ok ⟨beforeGG (strL "x>>y"),
               splitComma (beforeGG (afterGG (strL "x>>y")))⟩ :=
  ⟨by decide, c4_parse_amended.1 (strL "x>>y") (by decide)⟩

/-- C1 counterexample: on the layout table {en:0, us:1} and the event
sequence [activewindowv2>>W1, activelayout>>us, activewindowv2>>W2,
activewindowv2>>W1], the tracker issues 2 switch commands, not 3: the W1
refocus issues nothing because `currentLayout` is still 1 (a successful
switch command does not update it; only `activelayout` events do). -/
theorem c1_event_sequence_counterexample :
    (runLines (buildLayoutToIndex c1Layouts) (fun _ => true) initialTracker c1Lines).2.1
      = [0, 0]
    ∧ ([0, 0] : List Int).length ≠ 3 := by decide

/-- C1 amended: the run issues exactly the commands [switch-to-0,
switch-to-0] (on the first W1 focus and on the W2 focus), no command on
the W1 refocus, and ends with map[W1]=1, currentWindowId=W1,
currentLayout=1, without failure. -/
theorem c1_event_sequence_amended :
    runLines (buildLayoutToIndex c1Layouts) (fun _ => true) initialTracker c1Lines
      = (⟨[(strL "W1", 1)], strL "W1", 1⟩, [0, 0], false) := by decide

/-- C3 counterexample: from the initial state, a focus event for the new
window W1 resolves target 0 ≠ currentLayout −1 and issues switch-to-0,
but on success `currentLayout` stays −1 instead of being set to the
target 0; and on command failure `currentWindowId` has already been
updated to W1, so the state is not left exactly as before the event. -/
theorem c3_switch_counterexample :
    processEvent [] (fun _ => true) initialTracker
        ⟨strL "activewindowv2", [strL "W1"]⟩
      = ⟨⟨[], strL "W1", -1⟩, [0], false⟩
    ∧ processEvent [] (fun _ => false) initialTracker
        ⟨strL "activewindowv2", [strL "W1"]⟩
      = ⟨⟨[], strL "W1", -1⟩, [0], true⟩
    ∧ ((-1 : Int) ≠ 0)
    ∧ strL "W1" ≠ initialTracker.currentWindowId := by decide

/-- C3 amended: on an `activewindowv2` event for a new window id whose
resolved target differs from `currentLayout`, the tracker first sets
`currentWindowId` to the new id, then issues a switch-layout(target)
command; `currentLayout` and the window map are unchanged whether the
command succeeds or fails, and the failure flag is set exactly when the
command fails (which aborts the pipeline attempt, discarding the whole
state). -/
theorem c3_switch_amended (lt : List (List Char × Int)) (sw : Int → Bool)
    (st : TrackerState) (args : List (List Char)) (w : List Char)
    (hne : ¬ st.currentWindowId = w)
    (hdiff : ¬ lookupD st.layoutMap w defaultLayout = st.currentLayout) :
    processEvent lt sw st ⟨strL "activewindowv2", args ++ [w]⟩
      = ⟨⟨st.layoutMap, w, st.currentLayout⟩,
         [lookupD st.layoutMap w defaultLayout],
         !sw (lookupD st.layoutMap w defaultLayout)⟩ := by
  have hname : ¬ strL "activewindowv2" = strL "activelayout" := by decide
  simp only [processEvent]
  rw [if_neg hname]
  simp only [if_true]
  rw [lastArg_concat, if_neg hne, if_neg hdiff]

theorem c3_switch_amended_witness :
    ¬ initialTracker.currentWindowId = strL "W1"
    ∧ ¬ lookupD initialTracker.layoutMap (strL "W1") defaultLayout
        = initialTracker.currentLayout
    ∧ processEvent [] (fun _ => false) initialTracker
        ⟨strL "activewindowv2", [] ++ [strL "W1"]⟩
      = ⟨⟨initialTracker.layoutMap, strL "W1", initialTracker.currentLayout⟩,
         [lookupD initialTracker.layoutMap (strL "W1") defaultLayout],
         !(fun _ => false) (lookupD initialTracker.layoutMap (strL "W1") defaultLayout)⟩ :=
  ⟨by decide, by decide,
   c3_switch_amended [] (fun _ => false) initialTracker [] (strL "W1")
     (by decide) (by decide)⟩

/-- C8: a second consecutive `activewindowv2` event carrying the same
window id as the first is a no-op for every tracker state, every layout
table and every controller behaviour: it issues no command, does not
fail, and leaves the tracker state exactly as it was after the first
event. -/
theorem c8_duplicate_focus_noop (lt : List (List Char × Int)) (sw : Int → Bool)
    (st : TrackerState) (args1 args2 : List (List Char)) (w : List Char) :
    processEvent lt sw
        (processEvent lt sw st ⟨strL "activewindowv2", args1 ++ [w]⟩).state
        ⟨strL "activewindowv2", args2 ++ [w]⟩
      = ⟨(processEvent lt sw st ⟨strL "activewindowv2", args1 ++ [w]⟩).state,
         [], false⟩ := by
  have hname : ¬ strL "activewindowv2" = strL "activelayout" := by decide
  have hw := focus_sets_cwid lt sw st args1 w
  set st1 := (processEvent lt sw st ⟨strL "activewindowv2", args1 ++ [w]⟩).state
    with hst1
  simp only [processEvent]
  rw [if_neg hname]
  simp only [if_true]
  rw [lastArg_concat, if_pos hw]

/-- C6: after `k` consecutive failed attempts (1 ≤ k ≤ budget) the most
recent wait is the `k`-th backoff value and the loop has not terminated;
an attempt during which an event was read (so `resetRetryCount` ran)
always waits the first backoff value on its failure, resetting the
position; and a fifth consecutive failure exhausts the budget and
terminates instead of waiting again. -/
theorem c6_backoff (k : Nat) (h1 : 1 ≤ k) (h2 : k ≤ retryWaitMs.length) :
    ((supervise 0 (List.replicate k false)).1.getLastD 0 = retryWaitMs.getD (k - 1) 0
      ∧ (supervise 0 (List.replicate k false)).2 = false)
    ∧ (∀ (retry : Nat) (restAttempts : List Bool),
        supervise retry (true :: restAttempts)
          = (retryWaitMs.getD 0 0 :: (supervise 1 restAttempts).1,
             (supervise 1 restAttempts).2))
    ∧ supervise 0 (List.replicate (retryWaitMs.length + 1) false)
        = (retryWaitMs, true) := by
  refine ⟨?_, ?_, by decide⟩
  · have h2' : k ≤ 4 := by simpa [retryWaitMs] using h2
    interval_cases k
    · exact ⟨by decide, by decide⟩
    · exact ⟨by decide, by decide⟩
    · exact ⟨by decide, by decide⟩
    · exact ⟨by decide, by decide⟩
  · intro retry restAttempts
    simp [supervise, retryWaitMs]

theorem c6_backoff_witness :
    (1 ≤ 3 ∧ 3 ≤ retryWaitMs.length)
    ∧ ((supervise 0 (List.replicate 3 false)).1.getLastD 0 = retryWaitMs.getD 2 0
       ∧ (supervise 0 (List.replicate 3 false)).2 = false) :=
  ⟨⟨by decide, by decide⟩, (c6_backoff 3 (by decide) (by decide)).1⟩

/-- C7 counterexample: when the instance signature is missing, every
pipeline attempt fails without reading an event, and the supervisor DOES
apply its backoff policy to that failure: starting from retry 0 it
performs all four backoff waits before the fifth failure terminates the
process, contradicting "fatal before any pipeline attempt begins and
never retried". -/
theorem c7_missing_signature_counterexample :
    attemptDidReset false 7 = false
    ∧ supervise 0 (List.replicate 5 (attemptDidReset false 7)) = (retryWaitMs, true)
    ∧ retryWaitMs ≠ [] := by decide

/-- C7 amended: a missing `HYPRLAND_INSTANCE_SIGNATURE` makes
`hypr.NewClient`, and with it the whole pipeline attempt, fail before any
event is read; the supervisor treats this failure like any other: it
retries with the full backoff sequence and terminates the process only
once the retry budget is exhausted. -/
theorem c7_missing_signature_amended (eventsRead : Nat) :
    attemptDidReset false eventsRead = false
    ∧ supervise 0
        (List.replicate (retryWaitMs.length + 1) (attemptDidReset false eventsRead))
      = (retryWaitMs, true) := by
  have h : attemptDidReset false eventsRead = false := by simp [attemptDidReset]
  exact ⟨h, by rw [h]; decide⟩

/-- C9: a devices response whose keyboard list is empty does not make
`ReadLayouts` return a `DiscoveryError`; `response.Keyboards[0]` panics
with an index-out-of-range runtime error instead. -/
theorem c9_empty_keyboards_panic :
    readLayouts ⟨some [], fun _ => none, fun _ => false⟩ = .panicEmpty
    ∧ RLResult.panicEmpty ≠ RLResult.rlError := by decide

theorem scanLoop_main_spec (c : Controller) (K : List Char)
    (names : Nat → List Char) (kbsAt : Nat → List Keyboard) (kbAt : Nat → Keyboard)
    (k : Nat) :
    ∀ (i : Nat) (a : Option Nat),
      (∀ m, m < k → c.switchOk (i + m) = true) →
      (∀ m, m < k → c.queryAfterSwitch (i + m) = some (kbsAt (i + m))) →
      (∀ m, m < k → (kbsAt (i + m)).find? (fun kb => kb.main) = some (kbAt (i + m))) →
      (∀ m, m < k → (kbAt (i + m)).activeKeymap = names (i + m)) →
      scanLoop c K i k a
        = some ((List.range' i k).map names, List.range' i k,
                scanActive K names i k a) := by
  induction k with
  | zero =>
      intro i a _ _ _ _
      simp [scanLoop, scanActive, List.range']
  | succ k ih =>
      intro i a hsw hq hf hn
      have hsw0 := hsw 0 (Nat.succ_pos k)
      have hq0 := hq 0 (Nat.succ_pos k)
      have hf0 := hf 0 (Nat.succ_pos k)
      have hn0 := hn 0 (Nat.succ_pos k)
      rw [Nat.add_zero] at hsw0 hq0 hf0 hn0
      have hstep : ∀ m : Nat, i + (m + 1) = (i + 1) + m := fun m => by omega
      have ihx := ih (i + 1) (if names i = K then some i else a)
        (fun m hm => by rw [← hstep m]; exact hsw (m + 1) (by omega))
        (fun m hm => by rw [← hstep m]; exact hq (m + 1) (by omega))
        (fun m hm => by rw [← hstep m]; exact hf (m + 1) (by omega))
        (fun m hm => by rw [← hstep m]; exact hn (m + 1) (by omega))
      simp only [scanLoop, hsw0, hq0, hf0, if_true]
      rw [hn0, ihx]
      simp [List.range', scanActive]

theorem scanActive_no_match (K : List Char) (names : Nat → List Char) (k : Nat) :
    ∀ (i : Nat) (a : Option Nat),
      (∀ m, m < k → ¬ names (i + m) = K) →
      scanActive K names i k a = a := by
  induction k with
  | zero => intro i a _; rfl
  | succ k ih =>
      intro i a h
      have h0 := h 0 (Nat.succ_pos k)
      rw [Nat.add_zero] at h0
      show scanActive K names (i + 1) k (if names i = K then some i else a) = a
      rw [if_neg h0]
      exact ih (i + 1) a (fun m hm => by
        have := h (m + 1) (by omega)
        rwa [show i + (m + 1) = (i + 1) + m from by omega] at this)

theorem scanActive_unique (K : List Char) (names : Nat → List Char) (j : Nat)
    (k : Nat) :
    ∀ (i : Nat) (a : Option Nat),
      (∀ m, m < k → (names (i + m) = K ↔ i + m = j)) →
      i ≤ j → j < i + k →
      scanActive K names i k a = some j := by
  induction k with
  | zero => intro i a _ hij hji; omega
  | succ k ih =>
      intro i a hiff hij hji
      have hiff0 := hiff 0 (Nat.succ_pos k)
      rw [Nat.add_zero] at hiff0
      show scanActive K names (i + 1) k (if names i = K then some i else a) = some j
      by_cases hij' : i = j
      · subst hij'
        rw [if_pos (hiff0.mpr rfl)]
        apply scanActive_no_match
        intro m hm hc
        have := (hiff (m + 1) (by omega)).mp
          (by rwa [show i + (m + 1) = (i + 1) + m from by omega])
        omega
      · rw [if_neg (fun hc => hij' (hiff0.mp hc))]
        exact ih (i + 1) a (fun m hm => by
            have := hiff (m + 1) (by omega)
            rwa [show i + (m + 1) = (i + 1) + m from by omega] at this)
          (by omega) (by omega)

theorem scanLoop_nomain (c : Controller) (K : List Char)
    (kbsAt : Nat → List Keyboard) (k : Nat) :
    ∀ (i : Nat) (a : Option Nat),
      (∀ m, m < k → c.switchOk (i + m) = true) →
      (∀ m, m < k → c.queryAfterSwitch (i + m) = some (kbsAt (i + m))) →
      (∀ m, m < k → (kbsAt (i + m)).find? (fun kb => kb.main) = none) →
      scanLoop c K i k a
        = some (List.replicate k [], List.range' i k, a) := by
  induction k with
  | zero =>
      intro i a _ _ _
      simp [scanLoop, List.range']
  | succ k ih =>
      intro i a hsw hq hf
      have hsw0 := hsw 0 (Nat.succ_pos k)
      have hq0 := hq 0 (Nat.succ_pos k)
      have hf0 := hf 0 (Nat.succ_pos k)
      rw [Nat.add_zero] at hsw0 hq0 hf0
      have ihx := ih (i + 1) a
        (fun m hm => by
          have := hsw (m + 1) (by omega)
          rwa [show i + (m + 1) = (i + 1) + m from by omega] at this)
        (fun m hm => by
          have := hq (m + 1) (by omega)
          rwa [show i + (m + 1) = (i + 1) + m from by omega] at this)
        (fun m hm => by
          have := hf (m + 1) (by omega)
          rwa [show i + (m + 1) = (i + 1) + m from by omega] at this)
      simp only [scanLoop, hsw0, hq0, hf0, if_true]
      rw [ihx]
      simp [List.range', List.replicate]

/-- C5: for a controller that reports an n-entry comma-delimited
short-name list on its main keyboard and, after each switch-to-i command,
reports the keymap name `names i` on its main keyboard, `ReadLayouts`
returns the n-element list aligned index by index with the observed
names and, when exactly one scanned index reproduces the pre-scan keymap,
ends with a switch back to that index (the one active before discovery);
when no scanned index reproduces the pre-scan keymap, the device stays on
the last-scanned index (no further switch), the cannot-restore warning is
logged, and the list is still returned without failing. -/
theorem c5_discovery_roundtrip (c : Controller) (kb0 : Keyboard)
    (restKbs : List Keyboard) (mainKb : Keyboard) (K : List Char) (n : Nat)
    (names : Nat → List Char) (kbsAt : Nat → List Keyboard) (kbAt : Nat → Keyboard)
    (hq0 : c.query0 = some (kb0 :: restKbs))
    (hmainKb : mainKb = ((kb0 :: restKbs).find? (fun kb => kb.main)).getD kb0)
    (hK : K = mainKb.activeKeymap)
    (hn : n = (splitComma mainKb.layout).length)
    (hsw : ∀ i, i < n → c.switchOk i = true)
    (hq : ∀ i, i < n → c.queryAfterSwitch i = some (kbsAt i))
    (hfind : ∀ i, i < n → (kbsAt i).find? (fun kb => kb.main) = some (kbAt i))
    (hname : ∀ i, i < n → (kbAt i).activeKeymap = names i) :
    (∀ j, j < n → (∀ i, i < n → (names i = K ↔ i = j)) →
        readLayouts c
          = .ok ((List.range' 0 n).map names) (List.range' 0 n ++ [j]) false)
    ∧ ((∀ i, i < n → ¬ names i = K) →
        readLayouts c
          = .ok ((List.range' 0 n).map names) (List.range' 0 n) true) := by
  subst hmainKb
  subst hK
  subst hn
  have hscan := scanLoop_main_spec c
      (((kb0 :: restKbs).find? (fun kb => kb.main)).getD kb0).activeKeymap
      names kbsAt kbAt
      (splitComma (((kb0 :: restKbs).find? (fun kb => kb.main)).getD kb0).layout).length
      0 none
      (fun m hm => by rw [Nat.zero_add]; exact hsw m hm)
      (fun m hm => by rw [Nat.zero_add]; exact hq m hm)
      (fun m hm => by rw [Nat.zero_add]; exact hfind m hm)
      (fun m hm => by rw [Nat.zero_add]; exact hname m hm)
  constructor
  · intro j hj hiff
    have hact := scanActive_unique
        (((kb0 :: restKbs).find? (fun kb => kb.main)).getD kb0).activeKeymap
        names j
        (splitComma (((kb0 :: restKbs).find? (fun kb => kb.main)).getD kb0).layout).length
        0 none
        (fun m hm => by rw [Nat.zero_add]; exact hiff m hm)
        (Nat.zero_le j) (by omega)
    simp only [readLayouts, hq0]
    rw [hscan, hact]
    simp only [hsw j hj, if_true]
  · intro hno
    have hact := scanActive_no_match
        (((kb0 :: restKbs).find? (fun kb => kb.main)).getD kb0).activeKeymap
        names
        (splitComma (((kb0 :: restKbs).find? (fun kb => kb.main)).getD kb0).layout).length
        0 none
        (fun m hm => by rw [Nat.zero_add]; exact hno m hm)
    simp only [readLayouts, hq0]
    rw [hscan, hact]

theorem c5_discovery_roundtrip_witness :
    readLayouts cW
      = .ok [strL "English", strL "Russian", strL "German"] [0, 1, 2, 2] false := by
  have h := (c5_discovery_roundtrip cW kbMainW [] kbMainW (strL "German") 3
      namesW (fun i => [kbAtW i]) kbAtW rfl rfl rfl (by decide)
      (fun i _ => rfl) (fun i _ => rfl) (fun i _ => rfl) (fun i _ => rfl)).1 2
      (by decide)
      (by intro i hi; interval_cases i <;> decide)
  exact h.trans (by decide)

/-- C10: when no keyboard in any controller response is flagged main, the
initial query falls back to `Keyboards[0]`, but the scan loop records a
name only from a main-flagged keyboard, so every entry of the returned
list stays at the zero value `""`, no pre-scan index is ever remembered
(the warning path is taken) and no restoring switch is issued. -/
theorem c10_no_main_keyboard (c : Controller) (kb0 : Keyboard)
    (restKbs : List Keyboard) (kbsAt : Nat → List Keyboard)
    (hq0 : c.query0 = some (kb0 :: restKbs))
    (hnomain0 : (kb0 :: restKbs).find? (fun kb => kb.main) = none)
    (hsw : ∀ i, c.switchOk i = true)
    (hq : ∀ i, c.queryAfterSwitch i = some (kbsAt i))
    (hnomain : ∀ i, (kbsAt i).find? (fun kb => kb.main) = none) :
    readLayouts c
      = .ok (List.replicate (splitComma kb0.layout).length [])
          (List.range' 0 (splitComma kb0.layout).length) true := by
  have hscan := scanLoop_nomain c kb0.activeKeymap kbsAt
      (splitComma kb0.layout).length 0 none
      (fun m _ => hsw (0 + m)) (fun m _ => hq (0 + m)) (fun m _ => hnomain (0 + m))
  simp only [readLayouts, hq0, hnomain0, Option.getD_none]
  rw [hscan]

theorem c10_no_main_keyboard_witness :
    readLayouts cNoMainW = .ok [[], []] [0, 1] true := by
  have h := c10_no_main_keyboard cNoMainW kbNoMainW [] (fun _ => [kbNoMainW2])
      rfl rfl (fun i => rfl) (fun i => rfl) (fun i => rfl)
  exact h.trans (by decide)
